import Mathlib

/-!
Shallow embedding of the ProgLangProj4 interpreter sources.

Two dialects are embedded:
* `CalcLang` — `calc_examples/integrated_parser/calc_lang.py` (the "simple"
  arithmetic dialect: Number, Name, Add, Subtract, Set).
* `Grove` — `grove_lang.py` (the "extended" dialect: Number, StringLiteral,
  Object, Call, Addition placeholder, Name, Assignment, Import, Terminate).

Python exceptions are modelled with `Except`: the dialects' ParseException and
EvalException are explicit error constructors, and Python-level crashes that
the source can actually hit (IndexError, TypeError, UnboundLocalError) are
modelled as separate error constructors, since the source's dispatchers catch
only the dialect's ParseException and let the others propagate.

Machine integers: Python has arbitrary-precision `int`, embedded as `Int`.
-/

namespace ProgLangProj4

/-- Helper for `tokenize`: scan the characters, accumulating the current
token (in reverse) and emitting it at each whitespace run or at the end. -/
def splitWsAux : List Char → List Char → List String
  | [], acc => if acc.isEmpty then [] else [String.mk acc.reverse]
  | c :: cs, acc =>
    if c.isWhitespace then
      if acc.isEmpty then splitWsAux cs []
      else String.mk acc.reverse :: splitWsAux cs []
    else splitWsAux cs (c :: acc)

/-- Python `s.strip().split()`: split on runs of whitespace, dropping empties. -/
def tokenize (s : String) : List String :=
  splitWsAux s.toList []

/-- The contribution of one token to the parenthesis nesting depth
(`calc_lang.py` lines 67-71 / `grove_lang.py` lines 72-76: `(` increments,
`)` decrements, anything else leaves the depth unchanged). -/
def depthDelta (t : String) : Int :=
  if t = "(" then 1 else if t = ")" then -1 else 0

/-- Nesting depth after consuming a prefix of the token list. -/
def prefixDepth : List String → Int
  | [] => 0
  | t :: ts => depthDelta t + prefixDepth ts

/-- Error outcomes of `match_parens` (identical messages in both dialects). -/
inductive MPErr
  | tooShort
  | noOpen
  | noClose
deriving DecidableEq

/-- The scanning loop of `match_parens`: walk the tokens keeping the running
depth, returning the first index at which the depth reaches zero. -/
def matchLoop : List String → Int → Nat → Option Nat
  | [], _, _ => none
  | t :: ts, depth, i =>
    let d := depth + depthDelta t
    if d = 0 then some i else matchLoop ts d (i + 1)

/-- `Expression.match_parens`, token-identical in `calc_lang.py` lines 59-75
and `grove_lang.py` lines 64-80: requires at least two tokens and a leading
`(`, then returns the first index where the running depth reaches zero. -/
def matchParensCore (tokens : List String) : Except MPErr Nat :=
  if tokens.length < 2 then .error .tooShort
  else if tokens.head? ≠ some "(" then .error .noOpen
  else
    match matchLoop tokens 0 0 with
    | some i => .ok i
    | none => .error .noClose

/-- The depth first returns to zero at index `i` of the token list. -/
def firstZero (tokens : List String) (i : Nat) : Prop :=
  prefixDepth (tokens.take (i + 1)) = 0 ∧
    ∀ m < i, prefixDepth (tokens.take (m + 1)) ≠ 0

instance (tokens : List String) (i : Nat) : Decidable (firstZero tokens i) := by
  unfold firstZero; infer_instance

namespace CalcLang

/-- Exceptions of the calc dialect (`CalcParseException` / `CalcEvalException`). -/
inductive CErr
  | parse (msg : String)
  | eval (msg : String)
deriving DecidableEq

/-- Expression nodes of `calc_lang.py`: Add, Subtract, Number, Name. -/
inductive CExpr
  | num (n : Int)
  | name (s : String)
  | add (a b : CExpr)
  | sub (a b : CExpr)
deriving DecidableEq

/-- Statement nodes of `calc_lang.py`: only `Set` (a `Name` and a value). -/
inductive CStmt
  | set (name : String) (value : CExpr)
deriving DecidableEq

/-- A parsed command is either a statement or an expression. -/
inductive CCmd
  | stmt (s : CStmt)
  | expr (e : CExpr)
deriving DecidableEq

/-- The `context` dictionary mapping variable names to integers. -/
abbrev CEnv := String → Option Int

def cEmptyEnv : CEnv := fun _ => none

/-- Python `str.isdigit` on the token (empty strings are not digit strings). -/
def pyIsDigit (s : String) : Bool :=
  !s.toList.isEmpty && s.toList.all Char.isDigit

/-- Python `str.isalpha` on the token (empty strings are not alphabetic). -/
def pyIsAlpha (s : String) : Bool :=
  !s.toList.isEmpty && s.toList.all Char.isAlpha

/-- Python `int(...)` on a digits-only token. -/
def strToInt (s : String) : Int :=
  ((s.toList.foldl (fun a c => a * 10 + (c.toNat - 48)) 0 : Nat) : Int)

/-- Evaluation of expressions (`Number.eval`, `Name.eval`, `Add.eval`,
`Subtract.eval`).  The environment is threaded explicitly so that writes —
if any node performed one — would be visible; the source nodes only read. -/
def CExpr.eval : CExpr → CEnv → Except CErr (Int × CEnv)
  | .num n, env => .ok (n, env)
  | .name s, env =>
    match env s with
    | some v => .ok (v, env)
    | none => .error (.eval (s ++ " is undefined"))
  | .add a b, env =>
    match a.eval env with
    | .error e => .error e
    | .ok (x, env1) =>
      match b.eval env1 with
      | .error e => .error e
      | .ok (y, env2) => .ok (x + y, env2)
  | .sub a b, env =>
    match a.eval env with
    | .error e => .error e
    | .ok (x, env1) =>
      match b.eval env1 with
      | .error e => .error e
      | .ok (y, env2) => .ok (x - y, env2)

/-- `Set.eval`: evaluate the right-hand side, then bind the name. -/
def CStmt.eval : CStmt → CEnv → Except CErr CEnv
  | .set name value, env =>
    match value.eval env with
    | .error e => .error e
    | .ok (v, env1) => .ok (fun n => if n = name then some v else env1 n)

/-- `Expression.match_parens` of `calc_lang.py`, with its message strings. -/
def match_parens (tokens : List String) : Except CErr Nat :=
  match matchParensCore tokens with
  | .ok i => .ok i
  | .error .tooShort => .error (.parse "Expression too short")
  | .error .noOpen => .error (.parse "No opening paren found")
  | .error .noClose => .error (.parse "No closing paren found")

/-- `Number.parse`: exactly one token, all digits. -/
def Number.parse : List String → Except CErr CExpr
  | [t] =>
    if pyIsDigit t then .ok (.num (strToInt t))
    else .error (.parse "Numbers can only contain digits")
  | _ => .error (.parse "Wrong number of tokens for Number")

/-- `Name.parse`: exactly one token, all alphabetic. -/
def parseNameStr : List String → Except CErr String
  | [t] =>
    if pyIsAlpha t then .ok t
    else .error (.parse "Names can only contain letters")
  | _ => .error (.parse "Wrong number of tokens for Name")

def Name.parse (tokens : List String) : Except CErr CExpr :=
  match parseNameStr tokens with
  | .ok s => .ok (.name s)
  | .error e => .error e

/-- `Add.parse` (`calc_lang.py` lines 138-168), parameterised by the recursive
expression parser.  Each `try/except CalcParseException` of the source becomes
a match that converts a parse error into the step's own message. -/
def Add.parse (parseE : List String → Except CErr CExpr)
    (tokens : List String) : Except CErr CExpr :=
  if tokens.length < 7 then .error (.parse "Not enough tokens for Add")
  else if ¬(tokens.getD 0 "" = "+" ∧ tokens.getD 1 "" = "(") then
    .error (.parse "Add must begin with plus paren")
  else
    match match_parens (tokens.drop 1) with
    | .error _ => .error (.parse "Unable to parse first addend")
    | .ok idx =>
      let cut := idx + 1
      match parseE ((tokens.drop 2).take (cut - 2)) with
      | .error (.parse _) => .error (.parse "Unable to parse first addend")
      | .error e => .error e
      | .ok first =>
        let rest := tokens.drop (cut + 1)
        if rest.length < 3 then
          .error (.parse "Not enough tokens left for Add")
        else if ¬(rest.getD 0 "" = "(" ∧ rest.getLast? = some ")") then
          .error (.parse "Addends must be wrapped in parens")
        else
          match parseE ((rest.drop 1).dropLast) with
          | .error (.parse _) => .error (.parse "Unable to parse second addend")
          | .error e => .error e
          | .ok second => .ok (.add first second)

/-- `Subtract.parse` (`calc_lang.py` lines 181-210), same shape as `Add.parse`. -/
def Subtract.parse (parseE : List String → Except CErr CExpr)
    (tokens : List String) : Except CErr CExpr :=
  if tokens.length < 7 then .error (.parse "Not enough tokens for Subtract")
  else if ¬(tokens.getD 0 "" = "-" ∧ tokens.getD 1 "" = "(") then
    .error (.parse "Subtract must begin with minus paren")
  else
    match match_parens (tokens.drop 1) with
    | .error _ => .error (.parse "Unable to parse minuend")
    | .ok idx =>
      let cut := idx + 1
      match parseE ((tokens.drop 2).take (cut - 2)) with
      | .error (.parse _) => .error (.parse "Unable to parse minuend")
      | .error e => .error e
      | .ok first =>
        let rest := tokens.drop (cut + 1)
        if rest.length < 3 then
          .error (.parse "Not enough tokens left for Subtract")
        else if ¬(rest.getD 0 "" = "(" ∧ rest.getLast? = some ")") then
          .error (.parse "Subtrahends must be wrapped in parens")
        else
          match parseE ((rest.drop 1).dropLast) with
          | .error (.parse _) => .error (.parse "Unable to parse subtrahend")
          | .error e => .error e
          | .ok second => .ok (.sub first second)

/-- `except CalcParseException: try the next variant`; any other error
(none is produced in this dialect) would propagate. -/
def tryNext (first : Except CErr CExpr) (next : Unit → Except CErr CExpr) :
    Except CErr CExpr :=
  match first with
  | .ok e => .ok e
  | .error (.parse _) => next ()
  | .error e => .error e

/-- `Expression.parse`: try the `Expression` subclasses in declaration order
(Add, Subtract, Number, Name).  The recursion through `Add.parse` and
`Subtract.parse` always passes a strictly shorter token list, so fuel of
`tokens.length + 1` can never run out on the paths the source executes. -/
def Expression.parse : Nat → List String → Except CErr CExpr
  | 0, tokens =>
    .error (.parse ("Unrecognized Expression: " ++ String.intercalate " " tokens))
  | fuel + 1, tokens =>
    tryNext (Add.parse (Expression.parse fuel) tokens) fun _ =>
    tryNext (Subtract.parse (Expression.parse fuel) tokens) fun _ =>
    tryNext (Number.parse tokens) fun _ =>
    tryNext (Name.parse tokens) fun _ =>
      .error (.parse ("Unrecognized Expression: " ++ String.intercalate " " tokens))

/-- `Set.parse` (`calc_lang.py` lines 101-125). -/
def Set.parse (fuel : Nat) (tokens : List String) : Except CErr CStmt :=
  if tokens.length < 4 then .error (.parse "Statement too short for Set")
  else if tokens.getD 0 "" ≠ "set" then
    .error (.parse "Set statements must begin with set")
  else
    match parseNameStr [tokens.getD 1 ""] with
    | .error _ => .error (.parse "No name found for Set statement")
    | .ok name =>
      if tokens.getD 2 "" ≠ "=" then
        .error (.parse "Set statement requires equals")
      else
        match Expression.parse fuel (tokens.drop 3) with
        | .error (.parse _) => .error (.parse "No value found for Set statement")
        | .error e => .error e
        | .ok value => .ok (.set name value)

/-- `Statement.parse`: the only statement of this dialect is `Set`. -/
def Statement.parse (fuel : Nat) (tokens : List String) : Except CErr CStmt :=
  Set.parse fuel tokens

/-- `Command.parse` (`calc_lang.py` lines 22-38): tokenize, try `Statement`,
then `Expression`, and raise `Unrecognized Command` if both fail. -/
def Command.parse (s : String) : Except CErr CCmd :=
  let tokens := tokenize s
  let fuel := tokens.length + 1
  match Statement.parse fuel tokens with
  | .ok st => .ok (.stmt st)
  | .error (.parse _) =>
    match Expression.parse fuel tokens with
    | .ok e => .ok (.expr e)
    | .error (.parse _) => .error (.parse ("Unrecognized Command: " ++ s))
    | .error e => .error e
  | .error e => .error e

/-- Evaluate a parsed command: statements return `None`, expressions an int
(the REPL `calc.py` prints the result of `Command.parse(line).eval()`). -/
def CCmd.eval : CCmd → CEnv → Except CErr (Option Int × CEnv)
  | .stmt st, env =>
    match st.eval env with
    | .error e => .error e
    | .ok env1 => .ok (none, env1)
  | .expr e, env =>
    match e.eval env with
    | .error e => .error e
    | .ok (v, env1) => .ok (some v, env1)

/-- Parse and evaluate one input line against the environment. -/
def runLine (s : String) (env : CEnv) : Except CErr (Option Int × CEnv) :=
  match Command.parse s with
  | .error e => .error e
  | .ok c => c.eval env

/-- Parse and evaluate a sequence of input lines against one shared
environment, collecting each line's result in order. -/
def runLines : List String → CEnv → Except CErr (List (Option Int))
  | [], _ => .ok []
  | s :: rest, env =>
    match runLine s env with
    | .error e => .error e
    | .ok (r, env1) =>
      match runLines rest env1 with
      | .error e => .error e
      | .ok rs => .ok (r :: rs)

end CalcLang

namespace Grove

/-- Exceptions and crashes of the extended dialect: `GroveParseException`,
`GroveEvalException`, and the Python-level errors the source can actually
raise (which the dispatchers do NOT catch — they catch only
`GroveParseException`): `IndexError` from out-of-range string/list indexing,
`TypeError` from `len(filter(...))`, `UnboundLocalError` from reading a local
before assignment, and `SystemExit` from `sys.exit()`. -/
inductive GErr
  | parse (msg : String)
  | eval (msg : String)
  | indexError
  | typeError
  | unboundLocal
  | terminated
deriving DecidableEq

/-- Runtime type tags (`type(value)` in `Assignment.eval`). -/
inductive GTy
  | intT
  | strT
  | pairT
  | moduleT
deriving DecidableEq

/-- Python objects stored in the extended dialect's `context`: ints, strings,
the `(type(value), value)` tuples written by `Assignment.eval`, and module
handles written by `Import.eval`. -/
inductive GVal
  | int (n : Int)
  | str (s : String)
  | pair (t : GTy) (v : GVal)
  | module (name : String)
deriving DecidableEq

/-- Python `type(...)` on the embedded values. -/
def typeOf : GVal → GTy
  | .int _ => .intT
  | .str _ => .strT
  | .pair _ _ => .pairT
  | .module _ => .moduleT

/-- Expression nodes of `grove_lang.py` (declaration order: Number,
StringLiteral, Object, Call, Addition, Name; `Addition` is an empty
placeholder class with no parse of its own). -/
inductive GExpr
  | num (n : Int)
  | strLit (s : String)
  | objNew (names : List String)
  | call (objName : String) (metName : String) (args : List GExpr)
  | name (s : String)

/-- Statement nodes of `grove_lang.py` (declaration order: Assignment,
Import, Terminate). -/
inductive GStmt
  | assign (name : String) (value : GExpr)
  | imp (names : List String)
  | terminate

/-- A parsed grove command is either a statement or an expression. -/
inductive GCmd
  | stmt (s : GStmt)
  | expr (e : GExpr)

/-- The extended dialect's `context` dictionary (names to Python objects). -/
abbrev GCtx := String → Option GVal

def gEmptyCtx : GCtx := fun _ => none

def gUpdate (ctx : GCtx) (k : String) (v : GVal) : GCtx :=
  fun n => if n = k then some v else ctx n

/-- The capability to load a module (`importlib.import_module`), the spec's
external capability provider: `some` when the dotted name resolves, `none`
when the attempt raises. -/
abbrev Resolver := String → Option Unit

def resolveAll : Resolver := fun _ => some ()

def resolveNone : Resolver := fun _ => none

def grove_protected : List String :=
  ["set", "call", "new", "quit", "exit", "import"]

/-- Expression evaluation.  `Number`, `StringLiteral` and `Name` are embedded
from `grove_lang.py` lines 110-111, 129-130 and 237-239.  `Object.eval` and
`Call.eval` invoke host reflection (`globals()`, `getattr`), which the spec
treats as an external capability provider; no claim evaluates those nodes, so
they are mapped to an `EvalException` outcome here.  No grove expression node
writes to `context`, so evaluation returns only a value. -/
def GExpr.eval (ctx : GCtx) : GExpr → Except GErr GVal
  | .num n => .ok (.int n)
  | .strLit s => .ok (.str s)
  | .name s =>
    match ctx s with
    | some v => .ok v
    | none => .error (.eval (s ++ " is undefined"))
  | .objNew _ => .error (.eval "host reflection is external to the core")
  | .call _ _ _ => .error (.eval "host reflection is external to the core")

/-- Statement evaluation.  `Assignment.eval` (lines 259-261) stores the pair
`(type(value), value)`.  `Import.eval` (lines 295-302) guards the import with
`if nameString not in context:` but the final `context[nameString] = module`
sits OUTSIDE that guard, so on the already-bound path the local `module` was
never assigned and line 302 raises `UnboundLocalError`.  `Terminate.eval`
calls `sys.exit()`. -/
def GStmt.eval (resolve : Resolver) (ctx : GCtx) : GStmt → Except GErr GCtx
  | .assign name value =>
    match value.eval ctx with
    | .error e => .error e
    | .ok v => .ok (gUpdate ctx name (.pair (typeOf v) v))
  | .imp names =>
    let nameString := String.intercalate "." names
    if (ctx nameString).isSome then
      .error .unboundLocal
    else
      match resolve nameString with
      | none => .error (.eval "Module could not be imported")
      | some _ => .ok (gUpdate ctx nameString (.module nameString))
  | .terminate => .error .terminated

/-- `Expression.match_parens` of `grove_lang.py` (lines 64-80), identical to
the calc version. -/
def grove_match_parens (tokens : List String) : Except GErr Nat :=
  match matchParensCore tokens with
  | .ok i => .ok i
  | .error .tooShort => .error (.parse "Expression too short")
  | .error .noOpen => .error (.parse "No opening paren found")
  | .error .noClose => .error (.parse "No closing paren found")

/-- `Number.parse` of `grove_lang.py` (lines 114-124). -/
def gParseNumber : List String → Except GErr GExpr
  | [t] =>
    if CalcLang.pyIsDigit t then .ok (.num (CalcLang.strToInt t))
    else .error (.parse "Numbers can only contain digits")
  | _ => .error (.parse "Wrong number of tokens for Number")

/-- `StringLiteral.parse` (lines 133-145).  Line 140 tests
`tokens[0][tokens[0].__len__()] != '"'`: the index `len(token)` is one past
the end of the token, so whenever the short-circuiting first test
`tokens[0][0] != '"'` passes (i.e. the token DOES start with `"`), the second
test raises `IndexError`.  An empty token would already crash on `tokens[0][0]`. -/
def gParseStringLiteral : List String → Except GErr GExpr
  | [t] =>
    match t.toList.head? with
    | none => .error .indexError
    | some c0 =>
      if c0 ≠ '"' then
        .error (.parse "StringLiteral does not begin and end with quotations")
      else .error .indexError
  | _ => .error (.parse "Wrong number of tokens for StringLiteral")

/-- `Object.parse` (lines 166-179).  Line 172 builds `nameStrings` with
`filter(...)` and line 173 immediately calls `len(nameStrings)`: a Python
`filter` object has no `len`, so every input that passes the first two checks
raises `TypeError`. -/
def gParseObject (tokens : List String) : Except GErr GExpr :=
  if tokens.length ≠ 2 then
    .error (.parse "wrong number of tokens for an object")
  else if tokens.getD 0 "" ≠ "new" then
    .error (.parse "An object must begin with new")
  else .error .typeError

/-- `Name.parse` of `grove_lang.py` (lines 242-253).  Line 247 replaces
underscores and requires the result to be `isalnum` (so empty tokens fail
here).  On line 249 the source writes `not tokens[0][0].isalpha` WITHOUT
calling the method: a bound method is always truthy, so `not ...` is always
false and only the `tokens[0][0] == '_'` test is effective. -/
def gParseNameStr : List String → Except GErr String
  | [t] =>
    if ¬((t.toList.map fun c => if c = '_' then 'a' else c).all Char.isAlphanum
          ∧ ¬t.toList.isEmpty) then
      .error (.parse "Name must contain only alphanumeric characters")
    else
      match t.toList.head? with
      | none => .error .indexError
      | some c0 =>
        if c0 = '_' then
          .error (.parse "Name must start with an alphabetic character")
        else if t ∈ grove_protected then
          .error (.parse ("Name " ++ t ++ " is a reserved word"))
        else .ok t
  | _ => .error (.parse "Wrong number of tokens for Name")

def gParseName (tokens : List String) : Except GErr GExpr :=
  match gParseNameStr tokens with
  | .ok s => .ok (.name s)
  | .error e => .error e

/-- The argument scan of `Call.parse` (lines 219-226): `start` begins at 4
and `i` ranges over the PRE-computed list `5, 6, ..., closingparens`; each
`tokens[start:i]` that parses as an expression is appended and `start`
advances to `i`; a `GroveParseException` means "continue" (any other
exception would propagate). -/
def callArgScan (parseE : List String → Except GErr GExpr)
    (tokens : List String) :
    List Nat → Nat → List GExpr → Except GErr (List GExpr)
  | [], _, acc => .ok acc
  | i :: is, start, acc =>
    match parseE ((tokens.drop start).take (i - start)) with
    | .ok e => callArgScan parseE tokens is i (acc ++ [e])
    | .error (.parse _) => callArgScan parseE tokens is start acc
    | .error e => .error e

/-- `Call.parse` (lines 202-227), parameterised by the recursive expression
parser.  Note two slips relative to the documented grammar
`call <objName> <methodName> ( <expr> ) ...`:
line 208 runs `match_parens` on `tokens[2:]`, whose first token is the
method name rather than `(`, and lines 212/216 read the object and method
names from `tokens[2]` and `tokens[3]`.  The `except:` handlers around the
two `Name.parse` calls are bare and catch anything. -/
def Call.parse (parseE : List String → Except GErr GExpr)
    (tokens : List String) : Except GErr GExpr :=
  if tokens.length < 5 then
    .error (.parse "not enough tokens for a call statement")
  else if tokens.getD 0 "" ≠ "call" then
    .error (.parse "does not begin with call")
  else
    match grove_match_parens (tokens.drop 2) with
    | .error e => .error e
    | .ok idx =>
      let closingparens := idx + 2
      if closingparens < 5 then
        .error (.parse "not enough tokens for a call statement between parentheses")
      else
        match tokens.get? 2 with
        | none => .error (.parse "No object name found for Call expression")
        | some t2 =>
        match gParseNameStr [t2] with
        | .error _ => .error (.parse "No object name found for Call expression")
        | .ok objName =>
          match tokens.get? 3 with
          | none => .error (.parse "No method name found for Call expression")
          | some t3 =>
          match gParseNameStr [t3] with
          | .error _ => .error (.parse "No method name found for Call expression")
          | .ok metName =>
            match callArgScan parseE tokens
                ((List.range (closingparens - 4)).map fun k => k + 4 + 1) 4 [] with
            | .error e => .error e
            | .ok args => .ok (.call objName metName args)

/-- `Addition` (lines 229-231) is `pass`: it inherits `Expression.parse`,
which enumerates `Addition`'s (nonexistent) subclasses and so always raises
`Unrecognized Expression`. -/
def gParseAddition (tokens : List String) : Except GErr GExpr :=
  .error (.parse ("Unrecognized Expression: " ++ String.intercalate " " tokens))

/-- `except GroveParseException: try the next variant`; any other error
(IndexError, TypeError, ...) propagates out of the dispatcher. -/
def gTryE (first : Except GErr GExpr) (next : Unit → Except GErr GExpr) :
    Except GErr GExpr :=
  match first with
  | .ok e => .ok e
  | .error (.parse _) => next ()
  | .error e => .error e

/-- `Expression.parse` of `grove_lang.py` (lines 51-63): try the subclasses
in declaration order — Number, StringLiteral, Object, Call, Addition, Name. -/
def Expression.parse : Nat → List String → Except GErr GExpr
  | 0, tokens =>
    .error (.parse ("Unrecognized Expression: " ++ String.intercalate " " tokens))
  | fuel + 1, tokens =>
    gTryE (gParseNumber tokens) fun _ =>
    gTryE (gParseStringLiteral tokens) fun _ =>
    gTryE (gParseObject tokens) fun _ =>
    gTryE (Call.parse (Expression.parse fuel) tokens) fun _ =>
    gTryE (gParseAddition tokens) fun _ =>
    gTryE (gParseName tokens) fun _ =>
      .error (.parse ("Unrecognized Expression: " ++ String.intercalate " " tokens))

/-- `Assignment.parse` (lines 266-290). -/
def Assignment.parse (fuel : Nat) (tokens : List String) : Except GErr GStmt :=
  if tokens.length < 4 then
    .error (.parse "Statement too short for Assignment")
  else if tokens.getD 0 "" ≠ "set" then
    .error (.parse "Assignment statements must begin with set")
  else
    match gParseNameStr [tokens.getD 1 ""] with
    | .error (.parse _) => .error (.parse "No name found for Assignment statement")
    | .error e => .error e
    | .ok name =>
      if tokens.getD 2 "" ≠ "=" then
        .error (.parse "Assignment statement requires equals")
      else
        match Expression.parse fuel (tokens.drop 3) with
        | .error (.parse _) => .error (.parse "No value found for Assignment statement")
        | .error e => .error e
        | .ok value => .ok (.assign name value)

/-- Python indexing a string yields one-character strings; `Import.parse`
passes `tokens[1]` (a `str`) where `Name.parse` expects a token list, so the
string is consumed as a list of one-character tokens. -/
def strAsTokens (s : String) : List String :=
  s.toList.map fun c => String.mk [c]

/-- The `while i < len(tokens)` loop of `Import.parse` (lines 315-323):
expects `.` at `tokens[i]` and a name at `tokens[i+1]`, stepping by 2.
`tokens[i+1]` out of range raises `IndexError` (the bare `except:` catches
it, but its f-string message indexes `tokens[i+1]` again, re-raising
`IndexError`).  Fuel of `tokens.length` bounds the loop. -/
def importLoop (tokens : List String) :
    Nat → Nat → List String → Except GErr GStmt
  | 0, _, acc => .ok (.imp acc)
  | fuel + 1, i, acc =>
    if i < tokens.length then
      if tokens.getD i "" ≠ "." then
        .error (.parse "Invalid format for Import Statement")
      else
        match tokens.get? (i + 1) with
        | none => .error .indexError
        | some t =>
          match gParseNameStr (strAsTokens t) with
          | .error _ => .error (.parse (t ++ " is not a valid Name"))
          | .ok n => importLoop tokens fuel (i + 2) (acc ++ [n])
    else .ok (.imp acc)

/-- `Import.parse` (lines 305-324).  Line 312 calls `Name.parse(tokens[1])`
— the raw string, not `[tokens[1]]` — so the name token is treated as a list
of its characters (the bare `except:` turns the resulting failure into a
`GroveParseException`). -/
def Import.parse (tokens : List String) : Except GErr GStmt :=
  if tokens.length < 2 then
    .error (.parse "Not enough tokens for Import Statement")
  else if tokens.getD 0 "" ≠ "import" then
    .error (.parse "Import statements must begin with the import keyword")
  else
    match gParseNameStr (strAsTokens (tokens.getD 1 "")) with
    | .error _ => .error (.parse ((tokens.getD 1 "") ++ " is not a valid Name"))
    | .ok n => importLoop tokens tokens.length 2 [n]

/-- `Terminate.parse` (lines 331-337). -/
def Terminate.parse : List String → Except GErr GStmt
  | [t] =>
    if t = "quit" ∨ t = "exit" then .ok .terminate
    else .error (.parse "Terminate statements must be either quit or exit")
  | _ => .error (.parse "Wrong number of tokens for terminate")

def gTryS (first : Except GErr GStmt) (next : Unit → Except GErr GStmt) :
    Except GErr GStmt :=
  match first with
  | .ok st => .ok st
  | .error (.parse _) => next ()
  | .error e => .error e

/-- `Statement.parse` of `grove_lang.py` (lines 90-100): try the subclasses
in declaration order — Assignment, Import, Terminate. -/
def Statement.parse (fuel : Nat) (tokens : List String) : Except GErr GStmt :=
  gTryS (Assignment.parse fuel tokens) fun _ =>
  gTryS (Import.parse tokens) fun _ =>
  gTryS (Terminate.parse tokens) fun _ =>
    .error (.parse ("Unrecognized Statement: " ++ String.intercalate " " tokens))

/-- `Command.parse` of `grove_lang.py` (lines 25-43): tokenize, try
`Statement`, then `Expression`; only `GroveParseException` is caught. -/
def Command.parse (s : String) : Except GErr GCmd :=
  let tokens := tokenize s
  let fuel := tokens.length + 1
  match Statement.parse fuel tokens with
  | .ok st => .ok (.stmt st)
  | .error (.parse _) =>
    match Expression.parse fuel tokens with
    | .ok e => .ok (.expr e)
    | .error (.parse _) => .error (.parse ("Unrecognized Command: " ++ s))
    | .error e => .error e
  | .error e => .error e

end Grove

/-! ## Supporting lemmas -/

theorem prefixDepth_take_cons (t : String) (ts : List String) (n : Nat) :
    prefixDepth ((t :: ts).take (n + 1)) = depthDelta t + prefixDepth (ts.take n) := rfl

/-- Characterisation of the scanning loop: it returns `some j` exactly when
`j` offsets `i` by the least prefix length at which the running depth
(starting from `d`) reaches zero. -/
theorem matchLoop_eq_some (ts : List String) :
    ∀ (d : Int) (i j : Nat),
      matchLoop ts d i = some j ↔
        ∃ k, k < ts.length ∧ j = i + k ∧
          d + prefixDepth (ts.take (k + 1)) = 0 ∧
          ∀ m < k, d + prefixDepth (ts.take (m + 1)) ≠ 0 := by
  induction ts with
  | nil =>
    intro d i j
    simp [matchLoop]
  | cons t ts ih =>
    intro d i j
    by_cases h : d + depthDelta t = 0
    · simp only [matchLoop, h, if_pos]
      constructor
      · rintro ⟨rfl⟩
        refine ⟨0, by simp, by omega, ?_, by omega⟩
        rw [prefixDepth_take_cons]
        simpa [prefixDepth] using h
      · rintro ⟨k, hk, rfl, hz, hmin⟩
        match k with
        | 0 => simp
        | k' + 1 =>
          exfalso
          have h0 := hmin 0 (Nat.succ_pos k')
          rw [prefixDepth_take_cons] at h0
          simp only [List.take_zero] at h0
          simp only [prefixDepth] at h0
          omega
    · simp only [matchLoop, h, if_neg, ite_false]
      rw [ih (d + depthDelta t) (i + 1) j]
      constructor
      · rintro ⟨k', hk', rfl, hz, hmin⟩
        refine ⟨k' + 1, ?_, ?_, ?_, ?_⟩
        · simpa [List.length_cons] using Nat.succ_lt_succ hk'
        · omega
        · rw [prefixDepth_take_cons]
          omega
        · intro m hm
          match m with
          | 0 =>
            rw [prefixDepth_take_cons]
            simp only [List.take_zero]
            simp only [prefixDepth]
            omega
          | m' + 1 =>
            rw [prefixDepth_take_cons]
            have := hmin m' (by omega)
            omega
      · rintro ⟨k, hk, rfl, hz, hmin⟩
        simp only [List.length_cons] at hk
        match k with
        | 0 =>
          exfalso
          rw [prefixDepth_take_cons] at hz
          simp only [List.take_zero] at hz
          simp only [prefixDepth] at hz
          omega
        | k' + 1 =>
          rw [prefixDepth_take_cons] at hz
          refine ⟨k', by omega, by omega, by omega, ?_⟩
          intro m hm
          have := hmin (m + 1) (by omega)
          rw [prefixDepth_take_cons] at this
          omega

theorem matchParensCore_ok_head {ts : List String} {i : Nat}
    (h : matchParensCore ts = .ok i) : ts.head? = some "(" := by
  unfold matchParensCore at h
  by_cases h1 : ts.length < 2
  · simp [h1] at h
  · simp only [h1, if_false, ite_false] at h
    by_cases h2 : ts.head? = some "("
    · exact h2
    · simp [h2] at h

/-- On inputs passing the two leading checks, `match_parens` returns `i`
exactly when `i` is the first index at which the depth returns to zero. -/
theorem matchParensCore_ok_iff (tokens : List String) (i : Nat)
    (hlen : ¬tokens.length < 2) (hhead : tokens.head? = some "(") :
    matchParensCore tokens = .ok i ↔
      (i < tokens.length ∧ prefixDepth (tokens.take (i + 1)) = 0 ∧
        ∀ m < i, prefixDepth (tokens.take (m + 1)) ≠ 0) := by
  unfold matchParensCore
  simp only [hlen, hhead, if_false, ite_false, ne_eq, not_true_eq_false]
  cases hml : matchLoop tokens 0 0 with
  | none =>
    simp only []
    constructor
    · intro h; exact absurd h (by simp)
    · rintro ⟨hi, hz, hmin⟩
      exfalso
      have : matchLoop tokens 0 0 = some i :=
        (matchLoop_eq_some tokens 0 0 i).mpr
          ⟨i, hi, by omega, by omega, fun m hm => by have := hmin m hm; omega⟩
      rw [this] at hml; exact Option.noConfusion hml
  | some j =>
    simp only []
    obtain ⟨k, hk, hjk, hz, hmin⟩ := (matchLoop_eq_some tokens 0 0 j).mp hml
    simp only [Nat.zero_add] at hjk
    subst hjk
    constructor
    · intro h
      injection h with h
      subst h
      exact ⟨hk, by omega, fun m hm => by have := hmin m hm; omega⟩
    · rintro ⟨hi, hz2, hmin2⟩
      have hik : i = j := by
        rcases Nat.lt_trichotomy i j with hlt | heq | hgt
        · have := hmin i hlt; omega
        · exact heq
        · have := hmin2 j hgt; omega
      rw [hik]

theorem get?_eq_head?_drop (l : List String) (n : Nat) :
    l.get? n = (l.drop n).head? := by
  induction l generalizing n with
  | nil => cases n <;> rfl
  | cons a l ih =>
    cases n with
    | zero => rfl
    | succ n => exact ih n

theorem grove_match_parens_ok {ts : List String} {i : Nat}
    (h : Grove.grove_match_parens ts = .ok i) : matchParensCore ts = .ok i := by
  unfold Grove.grove_match_parens at h
  cases hc : matchParensCore ts with
  | ok j =>
    rw [hc] at h
    injection h with h
    rw [h]
  | error e =>
    cases e <;> rw [hc] at h <;> exact Except.noConfusion h

/-! ## Claim theorems -/

/-- C1: In the simple dialect, starting from an empty Environment, parsing
and evaluating the four command lines `set foo = 38`, `foo`,
`set bar = + ( 22 ) ( foo )`, `bar` in order against the single shared
Environment yields the results `[None, 38, None, 60]` in that order. -/
theorem c1_end_to_end :
    CalcLang.runLines ["set foo = 38", "foo", "set bar = + ( 22 ) ( foo )", "bar"]
        CalcLang.cEmptyEnv = .ok [none, some 38, none, some 60] := rfl

/-- C2: For every token list whose first token is `(` and whose nesting
depth first returns to zero at index `i`, the paren matcher returns exactly
`i`, independent of any trailing tokens after `i`; and it raises a
ParseError exactly when the list has fewer than 2 tokens, does not start
with `(`, or the depth never returns to zero. -/
theorem c2_paren_matcher (tokens : List String) :
    (∀ i, tokens.head? = some "(" → firstZero tokens i →
        ∀ rest, matchParensCore (tokens.take (i + 1) ++ rest) = .ok i)
    ∧ ((∃ e, matchParensCore tokens = .error e) ↔
        (tokens.length < 2 ∨ tokens.head? ≠ some "(" ∨
          ∀ m < tokens.length, prefixDepth (tokens.take (m + 1)) ≠ 0)) := by
  constructor
  · intro i hhead hfz rest
    obtain ⟨hz, hmin⟩ := hfz
    cases tokens with
    | nil => simp at hhead
    | cons t tl =>
      simp only [List.head?_cons, Option.some.injEq] at hhead
      subst hhead
      have hpos : 1 ≤ i := by
        rcases Nat.eq_zero_or_pos i with rfl | h
        · have hone : prefixDepth (("(" :: tl).take (0 + 1)) = 1 := rfl
          omega
        · exact h
      have hilen : i < tl.length + 1 := by
        by_contra hc
        push_neg at hc
        have h1 : ("(" :: tl).take (i + 1) = "(" :: tl :=
          List.take_of_length_le (by simp only [List.length_cons]; omega)
        have h2 : ("(" :: tl).take (tl.length + 1) = "(" :: tl :=
          List.take_of_length_le (by simp)
        have := hmin tl.length (by omega)
        rw [h2] at this
        rw [h1] at hz
        exact this hz
      have hitl : i ≤ tl.length := by omega
      have hlentake : (tl.take i).length = i := by
        simp [List.length_take, hitl]
      have happ1 : (tl.take i ++ rest).take i = tl.take i :=
        List.take_left' hlentake
      refine (matchParensCore_ok_iff (("(" :: tl).take (i + 1) ++ rest) i
          ?_ ?_).mpr ⟨?_, ?_, ?_⟩
      · show ¬("(" :: (tl.take i ++ rest)).length < 2
        simp only [List.length_cons, List.length_append, hlentake]
        omega
      · rfl
      · show i < ("(" :: (tl.take i ++ rest)).length
        simp only [List.length_cons, List.length_append, hlentake]
        omega
      · show prefixDepth (("(" :: (tl.take i ++ rest)).take (i + 1)) = 0
        rw [prefixDepth_take_cons, happ1]
        rw [prefixDepth_take_cons] at hz
        exact hz
      · intro m hm
        show prefixDepth (("(" :: (tl.take i ++ rest)).take (m + 1)) ≠ 0
        rw [prefixDepth_take_cons]
        have happ2 : (tl.take i ++ rest).take m = tl.take m := by
          rw [List.take_append_of_le_length (by omega), List.take_take,
            Nat.min_eq_left (by omega)]
        rw [happ2]
        have := hmin m hm
        rw [prefixDepth_take_cons] at this
        exact this
  · by_cases h1 : tokens.length < 2
    · constructor
      · intro _; exact Or.inl h1
      · intro _
        exact ⟨.tooShort, by unfold matchParensCore; simp [h1]⟩
    · by_cases h2 : tokens.head? = some "("
      · cases hml : matchLoop tokens 0 0 with
        | some j =>
          obtain ⟨k, hk, hjk, hz, hmin⟩ := (matchLoop_eq_some tokens 0 0 j).mp hml
          simp only [Nat.zero_add] at hjk
          subst hjk
          constructor
          · rintro ⟨e, he⟩
            exfalso
            unfold matchParensCore at he
            simp [h1, h2, hml] at he
          · rintro (hc | hc | hc)
            · exact absurd hc h1
            · exact absurd h2 hc
            · exact absurd (by omega : prefixDepth (tokens.take (j + 1)) = 0)
                (hc j hk)
        | none =>
          constructor
          · intro _
            refine Or.inr (Or.inr ?_)
            intro m hmlen
            intro hc
            have hex : ∃ n, prefixDepth (tokens.take (n + 1)) = 0 := ⟨m, hc⟩
            have hkz := Nat.find_spec hex
            have hkmin : ∀ m' < Nat.find hex,
                prefixDepth (tokens.take (m' + 1)) ≠ 0 :=
              fun m' hm' => Nat.find_min hex hm'
            have hkm : Nat.find hex ≤ m := Nat.find_min' hex hc
            have : matchLoop tokens 0 0 = some (Nat.find hex) :=
              (matchLoop_eq_some tokens 0 0 (Nat.find hex)).mpr
                ⟨Nat.find hex, by omega, by omega, by omega,
                  fun m' hm' => by have := hkmin m' hm'; omega⟩
            rw [this] at hml
            exact Option.noConfusion hml
          · intro _
            exact ⟨.noClose, by unfold matchParensCore; simp [h1, h2, hml]⟩
      · constructor
        · intro _; exact Or.inr (Or.inl h2)
        · intro _
          exact ⟨.noOpen, by unfold matchParensCore; simp [h1, h2]⟩

/-- Witness for C2 at `["(", "x", ")"]` with trailing token `"y"`: the depth
first returns to zero at index 2 and the matcher returns 2. -/
theorem c2_paren_matcher_witness :
    (["(", "x", ")"] : List String).head? = some "(" ∧
    firstZero ["(", "x", ")"] 2 ∧
    matchParensCore ((["(", "x", ")"] : List String).take (2 + 1) ++ ["y"]) = .ok 2 :=
  ⟨rfl, by decide, (c2_paren_matcher ["(", "x", ")"]).1 2 rfl (by decide) ["y"]⟩

/-- C3: the claim says `Call.parse` accepts
`call <objName> <methodName> ( <expr> ) ...` and returns a Call node; in
fact `Call.parse` raises a `GroveParseException` on EVERY token list: it
runs `match_parens` on `tokens[2:]` (which must then start with `(`) but
reads the object name from `tokens[2]` (which must then be a valid Name) —
the two requirements are contradictory. -/
theorem c3_call_parse_never_succeeds
    (parseE : List String → Except Grove.GErr Grove.GExpr)
    (tokens : List String) :
    ∃ e, Grove.Call.parse parseE tokens = .error e := by
  unfold Grove.Call.parse
  by_cases h1 : tokens.length < 5
  · refine ⟨.parse "not enough tokens for a call statement", ?_⟩
    rw [if_pos h1]
  · rw [if_neg h1]
    by_cases h2 : tokens.getD 0 "" = "call"
    · rw [if_neg (by simp only [ne_eq, h2, not_true_eq_false, not_false_eq_true])]
      cases h3 : Grove.grove_match_parens (tokens.drop 2) with
      | error e =>
        refine ⟨e, ?_⟩
        simp only [h3]
      | ok idx =>
        by_cases h4 : idx + 2 < 5
        · refine ⟨.parse "not enough tokens for a call statement between parentheses", ?_⟩
          simp only [h3, h4, if_true, ite_true]
        · have hh := matchParensCore_ok_head (grove_match_parens_ok h3)
          have hget : tokens.get? 2 = some "(" := by
            rw [get?_eq_head?_drop]; exact hh
          refine ⟨.parse "No object name found for Call expression", ?_⟩
          simp only [h3, h4, if_false, ite_false, hget]
          rfl
    · refine ⟨.parse "does not begin with call", ?_⟩
      rw [if_pos h2]

/-- C4: the claim says a well-formed single-token string literal parses to a
StringLiteral node and malformed ones raise ParseError only; in fact
`StringLiteral.parse` indexes `tokens[0][len(tokens[0])]` — one past the end
— so every token starting with `"` (well-formed or not) raises `IndexError`,
which the dispatchers do not catch. -/
theorem c4_string_literal_crashes :
    Grove.gParseStringLiteral ["\"hi\""] = .error .indexError
    ∧ Grove.Command.parse "\"hi\"" = .error .indexError := ⟨rfl, rfl⟩

/-- C5: when parsing a full calc Command, Statement variants are tried
before Expression variants, each variant failure is swallowed, and the
aggregate `Unrecognized Command` ParseError is raised exactly when both
categories fail. -/
theorem c5_dispatch_priority :
    (∀ s st, CalcLang.Statement.parse ((tokenize s).length + 1) (tokenize s) = .ok st →
        CalcLang.Command.parse s = .ok (.stmt st))
    ∧ (∀ s m1 e,
        CalcLang.Statement.parse ((tokenize s).length + 1) (tokenize s) = .error (.parse m1) →
        CalcLang.Expression.parse ((tokenize s).length + 1) (tokenize s) = .ok e →
        CalcLang.Command.parse s = .ok (.expr e))
    ∧ (∀ s, CalcLang.Command.parse s = .error (.parse ("Unrecognized Command: " ++ s)) ↔
        ((∃ m1, CalcLang.Statement.parse ((tokenize s).length + 1) (tokenize s)
            = .error (.parse m1)) ∧
         (∃ m2, CalcLang.Expression.parse ((tokenize s).length + 1) (tokenize s)
            = .error (.parse m2))))
    ∧ CalcLang.Command.parse "set x = 1" = .ok (.stmt (.set "x" (.num 1))) := by
  refine ⟨?_, ?_, ?_, rfl⟩
  · intro s st h
    unfold CalcLang.Command.parse
    simp only [h]
  · intro s m1 e h1 h2
    unfold CalcLang.Command.parse
    simp only [h1, h2]
  · intro s
    unfold CalcLang.Command.parse
    cases hst : CalcLang.Statement.parse ((tokenize s).length + 1) (tokenize s) with
    | ok st => simp [hst]
    | error e1 =>
      cases e1 with
      | parse m1 =>
        cases hex : CalcLang.Expression.parse ((tokenize s).length + 1) (tokenize s) with
        | ok e => simp [hst, hex]
        | error e2 =>
          cases e2 with
          | parse m2 => simp [hst, hex]
          | eval m2 => simp [hst, hex]
      | eval m1 => simp [hst]

/-- Witness for C5: `set x = 1` parses as a Statement, and `Command.parse`
returns that statement. -/
theorem c5_dispatch_priority_witness :
    CalcLang.Statement.parse ((tokenize "set x = 1").length + 1) (tokenize "set x = 1")
        = .ok (.set "x" (.num 1)) ∧
    CalcLang.Command.parse "set x = 1" = .ok (.stmt (.set "x" (.num 1))) :=
  ⟨rfl, c5_dispatch_priority.1 "set x = 1" (.set "x" (.num 1)) rfl⟩

/-- C6 counterexample: in the extended dialect, after assigning `Number 5`
to `x`, evaluating `Name x` returns the stored pair `(int, 5)`, which is not
the bare value `5` the claim promises. -/
theorem c6_counterexample :
    ((Grove.GStmt.eval Grove.resolveAll Grove.gEmptyCtx
          (.assign "x" (.num 5))).toOption.bind
        fun ctx => (Grove.GExpr.eval ctx (.name "x")).toOption)
      = some (.pair .intT (.int 5))
    ∧ Grove.GVal.pair .intT (.int 5) ≠ Grove.GVal.int 5 := ⟨rfl, by decide⟩

/-- C6 (amended): after assigning `Number v` to a name, looking the name up
returns exactly `v` in the simple dialect, and the tagged pair
`(type(v), v)` that `Assignment.eval` stored in the extended dialect. -/
theorem c6_assignment_then_name (name : String) (v : Int) :
    (∀ env : CalcLang.CEnv, ∃ env',
        CalcLang.CStmt.eval (.set name (.num v)) env = .ok env' ∧
        CalcLang.CExpr.eval (.name name) env' = .ok (v, env'))
    ∧ (∀ ctx : Grove.GCtx, ∃ ctx',
        Grove.GStmt.eval Grove.resolveAll ctx (.assign name (.num v)) = .ok ctx' ∧
        Grove.GExpr.eval ctx' (.name name) = .ok (.pair .intT (.int v))) := by
  constructor
  · intro env
    refine ⟨fun n => if n = name then some v else env n, rfl, ?_⟩
    simp [CalcLang.CExpr.eval]
  · intro ctx
    refine ⟨Grove.gUpdate ctx name (.pair .intT (.int v)), rfl, ?_⟩
    simp [Grove.GExpr.eval, Grove.gUpdate]

/-- C7: the claim says re-evaluating an Import whose dotted name is already
bound completes without error; in fact the skip path leaves the local
`module` unassigned and the unconditional `context[nameString] = module` on
line 302 raises `UnboundLocalError` on the second evaluation. -/
theorem c7_second_import_raises :
    Grove.GStmt.eval Grove.resolveAll Grove.gEmptyCtx (.imp ["a"])
        = .ok (Grove.gUpdate Grove.gEmptyCtx "a" (.module "a"))
    ∧ Grove.GStmt.eval Grove.resolveAll
        (Grove.gUpdate Grove.gEmptyCtx "a" (.module "a")) (.imp ["a"])
        = .error .unboundLocal := ⟨rfl, rfl⟩

/-- C8: the claim says `import <name>` parses for names of any length; in
fact `Import.parse` passes the raw string `tokens[1]` to `Name.parse`, which
treats it as a token list of its characters, so only one-character names
parse (`import os` fails, `import a` succeeds). -/
theorem c8_import_name_length :
    Grove.Import.parse ["import", "os"]
        = .error (.parse ("os" ++ " is not a valid Name"))
    ∧ Grove.Import.parse ["import", "a"] = .ok (.imp ["a"])
    ∧ Grove.Import.parse ["import", "ab", ".", "cd"]
        = .error (.parse ("ab" ++ " is not a valid Name")) := ⟨rfl, rfl, rfl⟩

/-- C9: in the simple dialect, a line with leftover tokens after a complete
expression (`+ ( 5 ) ( 4 ) foo`) and an infix form (`3 + 3`) each fail to
parse with the aggregate ParseError and no other error kind. -/
theorem c9_trailing_and_infix_rejected :
    CalcLang.Command.parse "+ ( 5 ) ( 4 ) foo"
        = .error (.parse ("Unrecognized Command: " ++ "+ ( 5 ) ( 4 ) foo"))
    ∧ CalcLang.Command.parse "3 + 3"
        = .error (.parse ("Unrecognized Command: " ++ "3 + 3")) := ⟨rfl, rfl⟩

/-- C10: evaluating any expression node of the simple dialect (Number, Name,
Add, Subtract) never modifies the Environment, while `Set.eval` does write
to it. -/
theorem c10_expr_eval_preserves_env :
    (∀ (e : CalcLang.CExpr) (env : CalcLang.CEnv) (v : Int) (env' : CalcLang.CEnv),
        CalcLang.CExpr.eval e env = .ok (v, env') → env' = env)
    ∧ (∃ env', CalcLang.CStmt.eval (.set "x" (.num 1)) CalcLang.cEmptyEnv = .ok env'
        ∧ env' "x" ≠ CalcLang.cEmptyEnv "x") := by
  constructor
  · intro e
    induction e with
    | num n =>
      intro env v env' h
      simp only [CalcLang.CExpr.eval, Except.ok.injEq, Prod.mk.injEq] at h
      exact h.2.symm
    | name s =>
      intro env v env' h
      cases henv : env s with
      | none => rw [CalcLang.CExpr.eval, henv] at h; exact Except.noConfusion h
      | some w =>
        rw [CalcLang.CExpr.eval, henv] at h
        simp only [Except.ok.injEq, Prod.mk.injEq] at h
        exact h.2.symm
    | add a b iha ihb =>
      intro env v env' h
      rw [CalcLang.CExpr.eval] at h
      split at h
      · exact Except.noConfusion h
      · rename_i x env1 heqa
        split at h
        · exact Except.noConfusion h
        · rename_i y env2 heqb
          simp only [Except.ok.injEq, Prod.mk.injEq] at h
          rw [← h.2, ihb env1 y env2 heqb, iha env x env1 heqa]
    | sub a b iha ihb =>
      intro env v env' h
      rw [CalcLang.CExpr.eval] at h
      split at h
      · exact Except.noConfusion h
      · rename_i x env1 heqa
        split at h
        · exact Except.noConfusion h
        · rename_i y env2 heqb
          simp only [Except.ok.injEq, Prod.mk.injEq] at h
          rw [← h.2, ihb env1 y env2 heqb, iha env x env1 heqa]
  · refine ⟨fun n => if n = "x" then some 1 else CalcLang.cEmptyEnv n, rfl, ?_⟩
    simp [CalcLang.cEmptyEnv]

/-- Witness for C10: evaluating `Number 3` in the empty environment
succeeds and (by the theorem) returns the environment unchanged. -/
theorem c10_expr_eval_preserves_env_witness :
    CalcLang.CExpr.eval (.num 3) CalcLang.cEmptyEnv = .ok (3, CalcLang.cEmptyEnv) ∧
    CalcLang.cEmptyEnv = CalcLang.cEmptyEnv :=
  ⟨rfl, c10_expr_eval_preserves_env.1 (.num 3) CalcLang.cEmptyEnv 3 CalcLang.cEmptyEnv rfl⟩

end ProgLangProj4
